import Mathlib

/-!
Verification development for the upv_chat direct-messaging server: a
shallow embedding of the WebSocket message handlers, the in-memory
presence registry and the durable-store queries, together with theorems
about the protocol properties.

Modelling conventions: machine numbers are Nat (ids are unsigned
AUTO_INCREMENT columns); a JavaScript Number() coercion result is a Nat
where 0 stands for every falsy outcome (0 or NaN); timestamps are an
abstract Nat clock; a query that the database rejects (foreign-key or
primary-key violation) is an Except error, which the async handler does
not catch, so it aborts the handler with no further sends.
-/

namespace UpvChat

/-- A connection identifier (a WebSocket object in the source). -/
abbrev ConnId := Nat

/-- Row of the users table. -/
structure UserRow where
  id : Nat
  username : String
  email : String
  is_active : Bool
deriving DecidableEq

/-- Row of the conversations table; isDm means type = dm. -/
structure ConvRow where
  id : Nat
  isDm : Bool
  created_by : Option Nat
deriving DecidableEq

/-- Row of the conversation_members table. -/
structure MemberRow where
  conversation_id : Nat
  user_id : Nat
deriving DecidableEq

/-- Row of the messages table. -/
structure MessageRow where
  id : Nat
  conversation_id : Nat
  sender_user_id : Nat
  body : String
  created_at : Nat
deriving DecidableEq

/-- Row of the message_receipts table, PRIMARY KEY (message_id, user_id);
the device_id column is always NULL in this code path and is omitted. -/
structure ReceiptRow where
  message_id : Nat
  user_id : Nat
  delivered_at : Option Nat
deriving DecidableEq

/-- Row of the user_blocks table. -/
structure BlockRow where
  blocker_user_id : Nat
  blocked_user_id : Nat
deriving DecidableEq

/-- The durable store: table contents plus the AUTO_INCREMENT counters. -/
structure DB where
  users : List UserRow
  conversations : List ConvRow
  members : List MemberRow
  messages : List MessageRow
  receipts : List ReceiptRow
  blocks : List BlockRow
  nextConvId : Nat
  nextMsgId : Nat
deriving DecidableEq

/-- SELECT id, username, is_active FROM users WHERE id = ? LIMIT 1. -/
def DB.userById (db : DB) (uid : Nat) : Option UserRow :=
  db.users.find? (fun u => u.id == uid)

/-- Foreign-key test: does a users row with this id exist. -/
def DB.userExists (db : DB) (uid : Nat) : Bool :=
  (db.userById uid).isSome

/-- JOIN condition on conversation_members: uid is a member of cid. -/
def DB.isMember (db : DB) (cid uid : Nat) : Bool :=
  db.members.any (fun m => m.conversation_id == cid && m.user_id == uid)

/-- The SELECT of getOrCreateDM: first conversations row of type dm that
both x and y are members of (the two JOINs on conversation_members),
LIMIT 1. -/
def DB.findDM (db : DB) (x y : Nat) : Option Nat :=
  (db.conversations.find? (fun c =>
      c.isDm && db.isMember c.id x && db.isMember c.id y)).map (fun c => c.id)

/-- SELECT sender_user_id FROM messages WHERE id = ? LIMIT 1 (whole row). -/
def DB.msgById (db : DB) (mid : Nat) : Option MessageRow :=
  db.messages.find? (fun m => m.id == mid)

/-- The LEFT JOINed message_receipts row for (mid, uid); the table has
PRIMARY KEY (message_id, user_id) so at most one row matches. -/
def DB.receiptFor (db : DB) (mid uid : Nat) : Option ReceiptRow :=
  db.receipts.find? (fun r => r.message_id == mid && r.user_id == uid)

/-- SELECT 1 FROM user_blocks WHERE blocker_user_id = ? AND
blocked_user_id = ? LIMIT 1, as a Bool. -/
def DB.isBlockedPair (db : DB) (blocker blocked : Nat) : Bool :=
  db.blocks.any (fun b =>
    b.blocker_user_id == blocker && b.blocked_user_id == blocked)

/-- Number of dm conversations rows having both x and y as members. -/
def DB.dmCount (db : DB) (x y : Nat) : Nat :=
  (db.conversations.filter (fun c =>
      c.isDm && db.isMember c.id x && db.isMember c.id y)).length

/-- The lookup phase of getOrCreateDM: the pair is sorted into
(minId, maxId) and the dm conversation containing both is looked up. -/
def dmLookup (db : DB) (userA userB : Nat) : Option Nat :=
  let minId := if userA < userB then userA else userB
  let maxId := if userA < userB then userB else userA
  db.findDM minId maxId

/-- The create phase of getOrCreateDM: one transaction inserting a
conversations row (type dm, created_by = userA) and two
conversation_members rows in argument order. The foreign keys require
both users to exist and the members PRIMARY KEY forbids userA = userB;
on violation the transaction rolls back and the error propagates. -/
def dmCreate (db : DB) (userA userB : Nat) : Except Unit (DB × Nat) :=
  if db.userExists userA && db.userExists userB && userA != userB then
    let cid := db.nextConvId
    .ok ({ db with
            conversations := db.conversations ++ [⟨cid, true, some userA⟩],
            members := db.members ++ [⟨cid, userA⟩, ⟨cid, userB⟩],
            nextConvId := cid + 1 }, cid)
  else .error ()

/-- getOrCreateDM run to completion with no interleaved writer: the
check-then-create sequence of the source. -/
def getOrCreateDM (db : DB) (userA userB : Nat) : Except Unit (DB × Nat) :=
  match dmLookup db userA userB with
  | some cid => .ok (db, cid)
  | none => dmCreate db userA userB

/-- Two concurrent getOrCreateDM calls under the event-loop schedule in
which both awaited SELECTs resolve before either INSERT transaction
runs (each await suspends its handler, so this interleaving is
realizable); returns the final store and the two conversation ids. -/
def getOrCreateDMRace (db : DB) (a b c d : Nat) :
    Except Unit (DB × Nat × Nat) :=
  match dmLookup db a b, dmLookup db c d with
  | none, none =>
      match dmCreate db a b with
      | .ok (db1, c1) =>
          match dmCreate db1 c d with
          | .ok (db2, c2) => .ok (db2, c1, c2)
          | .error e => .error e
      | .error e => .error e
  | _, _ => .error ()

/-- Session record stored in sessionBySocket. -/
structure Session where
  userId : Nat
  username : String
deriving DecidableEq

/-- One entry of a users broadcast payload. -/
structure UsersEntry where
  id : Nat
  username : String
  email : String
  online : Bool
deriving DecidableEq

/-- Server-to-client wire messages. -/
inductive WireMsg where
  | error (code : String)
  | hello_ok (userId : Nat) (username : String)
  | users (payload : List UsersEntry)
  | msg_sent (msgId conversationId : Nat)
  | msg_new (msgId conversationId fromUserId : Nat) (body : String) (createdAt : Nat)
  | msg_delivered (msgId byUserId : Nat)
deriving DecidableEq

/-- Client-to-server messages after JSON parsing and the Number()/String()
coercions the handler applies. hello carries the verifyToken result:
some userId when the token verifies with a truthy numeric userId, none
otherwise. invalid stands for an unparseable frame, other for a parsed
object whose type matches no handler. -/
inductive ClientMsg where
  | hello (token : Option Nat)
  | msg_send (toUserId : Nat) (body : String)
  | msg_delivered (msgId : Nat)
  | other
  | invalid
deriving DecidableEq

/-- The connectionsByUser map: userId to its set of live sockets. -/
abbrev Registry := List (Nat × List ConnId)

/-- connectionsByUser.get(uid). -/
def lookupConns (reg : Registry) (uid : Nat) : Option (List ConnId) :=
  (reg.find? (fun p => p.1 == uid)).map (fun p => p.2)

/-- isUserOnline: the entry exists and its set is non-empty. -/
def isUserOnline (reg : Registry) (uid : Nat) : Bool :=
  match lookupConns reg uid with
  | none => false
  | some s => !s.isEmpty

/-- hello handler registration: get the set, creating it when absent,
then set.add(ws) (a set, so adding an element already present is a
no-op). -/
def addConn (reg : Registry) (uid : Nat) (ws : ConnId) : Registry :=
  if reg.any (fun p => p.1 == uid) then
    reg.map (fun p =>
      if p.1 == uid then (p.1, if p.2.contains ws then p.2 else p.2 ++ [ws])
      else p)
  else reg ++ [(uid, [ws])]

/-- close handler removal: set.delete(ws), deleting the map entry when
the set becomes empty. -/
def removeConn (reg : Registry) (uid : Nat) (ws : ConnId) : Registry :=
  reg.filterMap (fun p =>
    if p.1 == uid then
      let s := p.2.filter (fun c => c != ws)
      if s.isEmpty then none else some (p.1, s)
    else some p)

/-- The sessionBySocket WeakMap. -/
abbrev Sessions := List (ConnId × Session)

/-- sessionBySocket.get(ws). -/
def lookupSession (ss : Sessions) (ws : ConnId) : Option Session :=
  (ss.find? (fun p => p.1 == ws)).map (fun p => p.2)

/-- sessionBySocket.set(ws, s). -/
def setSession (ss : Sessions) (ws : ConnId) (s : Session) : Sessions :=
  if ss.any (fun p => p.1 == ws) then
    ss.map (fun p => if p.1 == ws then (ws, s) else p)
  else ss ++ [(ws, s)]

/-- Whole server state: durable store, the wss.clients set of open
sockets, connectionsByUser, sessionBySocket and an abstract clock
supplying NOW() and message timestamps. -/
structure ServerState where
  db : DB
  clients : List ConnId
  connectionsByUser : Registry
  sessionBySocket : Sessions
  now : Nat
deriving DecidableEq

/-- An ordered list of sends: (target socket, message). -/
abbrev Out := List (ConnId × WireMsg)

/-- The payload built by sendUsersList: SELECT id, username, email,
is_active FROM users ORDER BY username ASC, then filter is_active and
attach online = isUserOnline(id). -/
def rosterPayload (db : DB) (reg : Registry) : List UsersEntry :=
  ((db.users.mergeSort (fun a b => a.username ≤ b.username)).filter
      (fun u => u.is_active)).map
    (fun u => ⟨u.id, u.username, u.email, isUserOnline reg u.id⟩)

/-- sendUsersList with no target socket: broadcast the roster to every
open socket in wss.clients. -/
def sendUsersList (st : ServerState) : Out :=
  st.clients.map (fun c =>
    (c, WireMsg.users (rosterPayload st.db st.connectionsByUser)))

/-- sendToUser: send to every live socket of uid, nothing when the user
has no registry entry. -/
def sendToUser (st : ServerState) (uid : Nat) (w : WireMsg) : Out :=
  match lookupConns st.connectionsByUser uid with
  | none => []
  | some s => s.map (fun c => (c, w))

/-- Qualifying condition of the deliverPendingToUser query: uid is a
member of the conversation and the LEFT JOINed receipt has delivered_at
NULL (either no receipt row, or one with delivered_at NULL). -/
def pendingPred (db : DB) (uid : Nat) (m : MessageRow) : Bool :=
  db.isMember m.conversation_id uid &&
    (match db.receiptFor m.id uid with
     | none => true
     | some r => r.delivered_at.isNone)

/-- Result set of the deliverPendingToUser query: qualifying messages,
ORDER BY m.created_at ASC, LIMIT 500. -/
def pendingFor (db : DB) (uid : Nat) : List MessageRow :=
  ((db.messages.filter (pendingPred db uid)).mergeSort
      (fun a b => a.created_at ≤ b.created_at)).take 500

/-- The msg_new push shape, shared by the live-send path and the backlog
replay. -/
def msgNewOf (m : MessageRow) : WireMsg :=
  .msg_new m.id m.conversation_id m.sender_user_id m.body m.created_at

/-- deliverPendingToUser: push each pending message to uid in query
order. -/
def deliverPendingOut (st : ServerState) (uid : Nat) : Out :=
  (pendingFor st.db uid).flatMap (fun m => sendToUser st uid (msgNewOf m))

/-- Result of one run of the ws message handler: new state, sends made,
and whether ws.close was called. threw records an awaited query
rejecting (constraint violation), aborting the handler after the sends
already made. -/
inductive HRes where
  | done (st : ServerState) (out : Out) (closesWs : Bool)
  | threw (st : ServerState) (out : Out)
deriving DecidableEq

/-- INSERT INTO message_receipts .. ON DUPLICATE KEY UPDATE
delivered_at = COALESCE(delivered_at, VALUES(delivered_at)): when a row
with the key (mid, uid) exists — the PRIMARY KEY allows at most one —
it keeps its delivered_at when already set and gets NOW() otherwise; a
fresh row gets delivered_at = NOW(). -/
def upsertReceipt (rs : List ReceiptRow) (mid uid t : Nat) : List ReceiptRow :=
  match rs with
  | [] => [⟨mid, uid, some t⟩]
  | r :: rest =>
      if r.message_id == mid && r.user_id == uid then
        { r with delivered_at :=
            match r.delivered_at with
            | some v => some v
            | none => some t } :: rest
      else r :: upsertReceipt rest mid uid t

/-- JavaScript String.prototype.trim: strip leading and trailing
whitespace from the character list. -/
def jsTrim (s : String) : String :=
  ⟨((s.data.dropWhile Char.isWhitespace).reverse.dropWhile Char.isWhitespace).reverse⟩

/-- delivered_at of the receipts row for (mid, uid), none when absent. -/
def getDeliveredAt (rs : List ReceiptRow) (mid uid : Nat) : Option Nat :=
  match rs.find? (fun r => r.message_id == mid && r.user_id == uid) with
  | none => none
  | some r => r.delivered_at

/-- The wss on-message handler, one inbound frame on socket ws: the
hello handshake, the session guard, msg_send, msg_delivered and the
unknown-type fallthrough, in source order. -/
def handleMessage (st : ServerState) (ws : ConnId) (msg : ClientMsg) : HRes :=
  match msg with
  | .invalid => .done st [(ws, .error "invalid_json")] false
  | .hello token =>
      match token with
      | none => .done st [(ws, .error "unauthorized")] true
      | some userId =>
          match st.db.userById userId with
          | none => .done st [(ws, .error "unauthorized")] true
          | some u =>
              if u.is_active then
                let st1 : ServerState :=
                  { st with
                    sessionBySocket := setSession st.sessionBySocket ws ⟨userId, u.username⟩,
                    connectionsByUser := addConn st.connectionsByUser userId ws }
                .done st1
                  ([(ws, .hello_ok userId u.username)] ++ sendUsersList st1
                    ++ deliverPendingOut st1 userId) false
              else .done st [(ws, .error "unauthorized")] true
  | _ =>
      match lookupSession st.sessionBySocket ws with
      | none => .done st [(ws, .error "unauthorized")] false
      | some session =>
          match msg with
          | .msg_send toUserId body0 =>
              let fromUserId := session.userId
              let body := jsTrim body0
              if toUserId == 0 || body == "" then
                .done st [(ws, .error "bad_request")] false
              else if st.db.isBlockedPair toUserId fromUserId then
                .done st [(ws, .error "blocked")] false
              else
                match getOrCreateDM st.db fromUserId toUserId with
                | .error _ => .threw st []
                | .ok (db1, conversationId) =>
                    if db1.userExists fromUserId then
                      let msgId := db1.nextMsgId
                      let db2 : DB :=
                        { db1 with
                          messages := db1.messages ++
                            [⟨msgId, conversationId, fromUserId, body, st.now⟩],
                          nextMsgId := msgId + 1 }
                      let st2 : ServerState := { st with db := db2 }
                      .done st2
                        (sendToUser st2 toUserId
                            (.msg_new msgId conversationId fromUserId body st.now)
                          ++ [(ws, .msg_sent msgId conversationId)]) false
                    else .threw st []
          | .msg_delivered msgId0 =>
              let userId := session.userId
              if msgId0 == 0 then .done st [(ws, .error "bad_request")] false
              else if (st.db.msgById msgId0).isSome && st.db.userExists userId then
                let db1 : DB :=
                  { st.db with receipts := upsertReceipt st.db.receipts msgId0 userId st.now }
                let st1 : ServerState := { st with db := db1 }
                match db1.msgById msgId0 with
                | none => .done st1 [] false
                | some m =>
                    .done st1
                      (sendToUser st1 m.sender_user_id (.msg_delivered msgId0 userId)) false
              else .threw st []
          | _ => .done st [(ws, .error "unknown_type")] false

/-- The ws close handler: by the time it runs the socket has left
wss.clients; a socket with no session does nothing further, otherwise
the socket is removed from the presence map (deleting the entry when the
set empties) and the roster is broadcast. -/
def handleClose (st : ServerState) (ws : ConnId) : ServerState × Out :=
  let st0 : ServerState := { st with clients := st.clients.filter (fun c => c != ws) }
  match lookupSession st0.sessionBySocket ws with
  | none => (st0, [])
  | some session =>
      let st1 : ServerState :=
        { st0 with
          connectionsByUser := removeConn st0.connectionsByUser session.userId ws }
      (st1, sendUsersList st1)

/-! Concrete states used by counterexamples and witnesses. -/

/-- A store with two active users and nothing else. -/
def dbTwoUsers : DB :=
  { users := [⟨1, "alice", "alice@upv.es", true⟩, ⟨2, "bruno", "bruno@upv.es", true⟩],
    conversations := [], members := [], messages := [], receipts := [], blocks := [],
    nextConvId := 1, nextMsgId := 1 }

/-- One open socket 1 that has never completed a handshake. -/
def stUnauth : ServerState :=
  { db := dbTwoUsers, clients := [1], connectionsByUser := [], sessionBySocket := [], now := 7 }

/-- User 1 authenticated on socket 1; user 2 exists but is inactive. -/
def stInactivePeer : ServerState :=
  { db := { dbTwoUsers with
            users := [⟨1, "alice", "alice@upv.es", true⟩, ⟨2, "bruno", "bruno@upv.es", false⟩] },
    clients := [1], connectionsByUser := [(1, [1])],
    sessionBySocket := [(1, ⟨1, "alice"⟩)], now := 7 }

/-- User 1 authenticated on socket 1; the store holds no messages. -/
def stNoMsg : ServerState :=
  { db := dbTwoUsers, clients := [1], connectionsByUser := [(1, [1])],
    sessionBySocket := [(1, ⟨1, "alice"⟩)], now := 7 }

/-- User 1 authenticated on socket 1; user 2 has blocked user 1. -/
def stBlocked : ServerState :=
  { db := { dbTwoUsers with blocks := [⟨2, 1⟩] },
    clients := [1], connectionsByUser := [(1, [1])],
    sessionBySocket := [(1, ⟨1, "alice"⟩)], now := 7 }

/-! C2: behaviour of non-hello frames in UNAUTHENTICATED state. -/

/-- C2 counterexample: an unauthenticated socket sending msg_send is
answered with error unauthorized, but the handler does not close the
transport (the close flag of the result is false) — refuting the
transport-is-closed half of the claim at a concrete input. -/
theorem unauth_msgSend_leaves_transport_open :
    handleMessage stUnauth 1 (.msg_send 2 "hi") =
      .done stUnauth [(1, .error "unauthorized")] false := by
  rfl

/-- C2 (amended): every parsed non-hello frame on a connection with no
session is answered with error unauthorized, the state is unchanged and
the transport is left open; only a failed hello handshake closes it. -/
theorem unauth_non_hello_rejected (st : ServerState) (ws : ConnId) (msg : ClientMsg)
    (hns : lookupSession st.sessionBySocket ws = none)
    (hh : ∀ t, msg ≠ .hello t) (hi : msg ≠ .invalid) :
    handleMessage st ws msg = .done st [(ws, .error "unauthorized")] false := by
  cases msg with
  | hello t => exact absurd rfl (hh t)
  | invalid => exact absurd rfl hi
  | msg_send a b => simp [handleMessage, hns]
  | msg_delivered a => simp [handleMessage, hns]
  | other => simp [handleMessage, hns]

/-- Witness for the amended C2 theorem at a concrete input. -/
theorem unauth_non_hello_rejected_witness :
    handleMessage stUnauth 1 .other = .done stUnauth [(1, .error "unauthorized")] false :=
  unauth_non_hello_rejected stUnauth 1 .other rfl
    (fun _ h => ClientMsg.noConfusion h) (fun h => ClientMsg.noConfusion h)

/-! C3: msg_send validation. -/

/-- C3 counterexample: user 2 exists but is inactive, yet a msg_send to
user 2 is not answered with bad_request — the handler inserts a message
row and acknowledges with msg_sent, refuting the claim at a concrete
input. -/
theorem msgSend_inactive_peer_inserts_row :
    stInactivePeer.db.userById 2 = some ⟨2, "bruno", "bruno@upv.es", false⟩ ∧
    handleMessage stInactivePeer 1 (.msg_send 2 "hi") =
      .done
        { stInactivePeer with
          db := { stInactivePeer.db with
                  conversations := [⟨1, true, some 1⟩],
                  members := [⟨1, 1⟩, ⟨1, 2⟩],
                  messages := [⟨1, 1, 1, "hi", 7⟩],
                  nextConvId := 2, nextMsgId := 2 } }
        [(1, .msg_sent 1 1)] false := by
  constructor
  · rfl
  · rfl

/-- C3 (amended): the only bad_request condition of msg_send is a falsy
coerced toUserId or a body empty after trimming, in which case nothing
is inserted; no existing-active-user check is made on toUserId — with
any recipient for which the conversation step succeeds the message row
is inserted regardless of activity, and when the conversation
transaction fails (nonexistent recipient id) the handler aborts with no
reply and no message row. -/
theorem msgSend_validation (st : ServerState) (ws : ConnId) (s : Session)
    (toUserId : Nat) (body : String)
    (hs : lookupSession st.sessionBySocket ws = some s) :
    ((toUserId = 0 ∨ jsTrim body = "") →
      handleMessage st ws (.msg_send toUserId body) =
        .done st [(ws, .error "bad_request")] false) ∧
    (toUserId ≠ 0 → jsTrim body ≠ "" →
      st.db.isBlockedPair toUserId s.userId = false →
      getOrCreateDM st.db s.userId toUserId = .error () →
      handleMessage st ws (.msg_send toUserId body) = .threw st []) ∧
    (∀ db1 cid, toUserId ≠ 0 → jsTrim body ≠ "" →
      st.db.isBlockedPair toUserId s.userId = false →
      getOrCreateDM st.db s.userId toUserId = .ok (db1, cid) →
      db1.userExists s.userId = true →
      ∃ st2, handleMessage st ws (.msg_send toUserId body) =
          .done st2 (sendToUser st2 toUserId
              (.msg_new db1.nextMsgId cid s.userId (jsTrim body) st.now)
            ++ [(ws, .msg_sent db1.nextMsgId cid)]) false ∧
        st2.db.messages = db1.messages ++
          [⟨db1.nextMsgId, cid, s.userId, jsTrim body, st.now⟩]) := by
  refine ⟨?_, ?_, ?_⟩
  · rintro (h | h) <;> simp [handleMessage, hs, h]
  · intro h1 h2 h3 h4
    simp [handleMessage, hs, h1, h2, h3, h4]
  · intro db1 cid h1 h2 h3 h4 h5
    refine ⟨{ st with db := { db1 with
        messages := db1.messages ++ [⟨db1.nextMsgId, cid, s.userId, jsTrim body, st.now⟩],
        nextMsgId := db1.nextMsgId + 1 } }, ?_, rfl⟩
    simp [handleMessage, hs, h1, h2, h3, h4, h5]

/-- Witness for the amended C3 theorem: the empty-body branch at a
concrete input. -/
theorem msgSend_validation_witness :
    handleMessage stNoMsg 1 (.msg_send 2 "   ") =
      .done stNoMsg [(1, .error "bad_request")] false :=
  (msgSend_validation stNoMsg 1 ⟨1, "alice"⟩ 2 "   " rfl).1 (Or.inr rfl)

/-! C4: msg_delivered validation. -/

/-- C4 counterexample: msgId 7 is a positive integer naming no existing
message, yet the handler does not reply bad_request — the receipt insert
fails and the handler aborts with no reply at all, refuting the claim at
a concrete input. -/
theorem msgDelivered_nonexistent_no_reply :
    stNoMsg.db.msgById 7 = none ∧
    handleMessage stNoMsg 1 (.msg_delivered 7) = .threw stNoMsg [] := by
  exact ⟨rfl, rfl⟩

/-- C4 (amended): msg_delivered replies bad_request exactly when the
coerced msgId is falsy; a truthy msgId naming no existing message makes
the receipt insert fail, aborting the handler with no reply; in both
cases no receipt state changes. -/
theorem msgDelivered_validation (st : ServerState) (ws : ConnId) (s : Session)
    (mid : Nat)
    (hs : lookupSession st.sessionBySocket ws = some s) :
    (mid = 0 →
      handleMessage st ws (.msg_delivered mid) =
        .done st [(ws, .error "bad_request")] false) ∧
    (mid ≠ 0 → st.db.msgById mid = none →
      handleMessage st ws (.msg_delivered mid) = .threw st []) := by
  constructor
  · intro h; simp [handleMessage, hs, h]
  · intro h1 h2; simp [handleMessage, hs, h1, h2]

/-- Witness for the amended C4 theorem at a concrete input. -/
theorem msgDelivered_validation_witness :
    handleMessage stNoMsg 1 (.msg_delivered 0) =
      .done stNoMsg [(1, .error "bad_request")] false :=
  (msgDelivered_validation stNoMsg 1 ⟨1, "alice"⟩ 0 rfl).1 rfl

/-! C6: blocked recipients. -/

/-- C6: an authenticated msg_send whose recipient has blocked the sender
is answered with error blocked and leaves the whole state — in
particular the messages table — unchanged, so no message row is
created. -/
theorem msgSend_blocked_rejected (st : ServerState) (ws : ConnId) (s : Session)
    (toUserId : Nat) (body : String)
    (hs : lookupSession st.sessionBySocket ws = some s)
    (ht : toUserId ≠ 0) (hb : jsTrim body ≠ "")
    (hblk : st.db.isBlockedPair toUserId s.userId = true) :
    handleMessage st ws (.msg_send toUserId body) =
      .done st [(ws, .error "blocked")] false := by
  simp [handleMessage, hs, ht, hb, hblk]

/-- Witness for the C6 theorem at a concrete input. -/
theorem msgSend_blocked_rejected_witness :
    handleMessage stBlocked 1 (.msg_send 2 "hola") =
      .done stBlocked [(1, .error "blocked")] false :=
  msgSend_blocked_rejected stBlocked 1 ⟨1, "alice"⟩ 2 "hola" rfl
    (by decide) (by decide) rfl

/-! Receipt-upsert lemmas shared by the delivery-ack theorems. -/

/-- After an upsert for (mid, uid), delivered_at of that key is the old
value when one was set and the upsert timestamp otherwise. -/
theorem getDeliveredAt_upsert_self (rs : List ReceiptRow) (mid uid t : Nat) :
    getDeliveredAt (upsertReceipt rs mid uid t) mid uid =
      some (match getDeliveredAt rs mid uid with
            | some v => v
            | none => t) := by
  induction rs with
  | nil => simp [upsertReceipt, getDeliveredAt]
  | cons r rest ih =>
      by_cases hr : (r.message_id == mid && r.user_id == uid) = true
      · simp only [upsertReceipt, hr, if_true]
        simp only [getDeliveredAt, List.find?_cons, hr]
        cases r.delivered_at <;> simp
      · simp only [upsertReceipt, hr, if_false, Bool.false_eq_true]
        simp only [getDeliveredAt, List.find?_cons] at ih ⊢
        rw [Bool.not_eq_true] at hr
        rw [hr]
        exact ih

/-- An upsert for one key leaves delivered_at of every other key
unchanged. -/
theorem getDeliveredAt_upsert_other (rs : List ReceiptRow) (mid uid t a b : Nat)
    (h : ¬(mid = a ∧ uid = b)) :
    getDeliveredAt (upsertReceipt rs mid uid t) a b = getDeliveredAt rs a b := by
  induction rs with
  | nil =>
      simp only [upsertReceipt, getDeliveredAt, List.find?_cons, List.find?_nil]
      have hk : ((⟨mid, uid, some t⟩ : ReceiptRow).message_id == a &&
          (⟨mid, uid, some t⟩ : ReceiptRow).user_id == b) = false := by
        simp only [Bool.and_eq_false_iff, beq_eq_false_iff_ne]
        by_contra hcon
        push_neg at hcon
        exact h ⟨hcon.1, hcon.2⟩
      rw [hk]
  | cons r rest ih =>
      by_cases hr : (r.message_id == mid && r.user_id == uid) = true
      · simp only [upsertReceipt, hr, if_true]
        have hkeys : (r.message_id == a && r.user_id == b) = false := by
          simp only [Bool.and_eq_true, beq_iff_eq] at hr
          simp only [Bool.and_eq_false_iff, beq_eq_false_iff_ne]
          by_contra hcon
          push_neg at hcon
          exact h ⟨hr.1 ▸ hcon.1, hr.2 ▸ hcon.2⟩
        simp only [getDeliveredAt, List.find?_cons]
        have hkeys2 : (({ r with delivered_at :=
            match r.delivered_at with
            | some v => some v
            | none => some t } : ReceiptRow).message_id == a &&
            ({ r with delivered_at :=
                match r.delivered_at with
                | some v => some v
                | none => some t } : ReceiptRow).user_id == b) = false := hkeys
        rw [hkeys2]
      · simp only [upsertReceipt, hr, if_false, Bool.false_eq_true]
        simp only [getDeliveredAt, List.find?_cons] at ih ⊢
        by_cases hab : (r.message_id == a && r.user_id == b) = true
        · rw [hab]
        · rw [Bool.not_eq_true] at hab
          rw [hab]
          exact ih

/-- A set delivered_at survives every later upsert unchanged: the
monotonicity half of the receipt invariant. -/
theorem getDeliveredAt_upsert_mono (rs : List ReceiptRow) (mid uid t a b v : Nat)
    (h : getDeliveredAt rs a b = some v) :
    getDeliveredAt (upsertReceipt rs mid uid t) a b = some v := by
  by_cases hk : mid = a ∧ uid = b
  · obtain ⟨rfl, rfl⟩ := hk
    rw [getDeliveredAt_upsert_self, h]
  · rw [getDeliveredAt_upsert_other _ _ _ _ _ _ hk, h]

/-- Upserting the same key twice gives the delivered_at of the first
upsert. -/
theorem getDeliveredAt_upsert_idem (rs : List ReceiptRow) (mid uid t1 t2 : Nat) :
    getDeliveredAt (upsertReceipt (upsertReceipt rs mid uid t1) mid uid t2) mid uid =
      getDeliveredAt (upsertReceipt rs mid uid t1) mid uid := by
  rw [getDeliveredAt_upsert_self, getDeliveredAt_upsert_self]

/-- State after the receipt upsert of a delivery ack at time st.now. -/
def ackState (st : ServerState) (mid uid : Nat) : ServerState :=
  { st with db := { st.db with receipts := upsertReceipt st.db.receipts mid uid st.now } }

/-- Reduction of the msg_delivered branch when the named message and the
acking user exist: the receipt is upserted and the confirmation is
pushed to the live connections of the sender of the message. -/
theorem handleMessage_msg_delivered_eq (st : ServerState) (ws : ConnId) (s : Session)
    (mid : Nat) (m : MessageRow)
    (hs : lookupSession st.sessionBySocket ws = some s)
    (hm : mid ≠ 0)
    (hfind : st.db.msgById mid = some m)
    (hu : st.db.userExists s.userId = true) :
    handleMessage st ws (.msg_delivered mid) =
      .done (ackState st mid s.userId)
        (sendToUser (ackState st mid s.userId) m.sender_user_id
          (.msg_delivered mid s.userId)) false := by
  have hfind1 : (({ st.db with
      receipts := upsertReceipt st.db.receipts mid s.userId st.now } : DB).msgById mid) =
      some m := by
    simpa [DB.msgById] using hfind
  simp [handleMessage, hs, hm, hfind, hu, hfind1, ackState]

/-! C5: idempotence and monotonicity of the delivery-ack path. -/

/-- C5: with an authenticated session naming an existing user, a
delivery ack for an existing message succeeds, running the same ack a
second time also succeeds with no error and leaves delivered_at at the
value set by the first call, the first call leaves delivered_at set,
and a set delivered_at survives every later receipt upsert — the only
operation of the server that writes receipt state — so it is set at
most once and never cleared. -/
theorem delivery_ack_idempotent (st : ServerState) (ws : ConnId) (s : Session)
    (mid : Nat) (m : MessageRow)
    (hs : lookupSession st.sessionBySocket ws = some s)
    (hm : mid ≠ 0)
    (hfind : st.db.msgById mid = some m)
    (hu : st.db.userExists s.userId = true) :
    ∃ st1 out1 st2 out2,
      handleMessage st ws (.msg_delivered mid) = .done st1 out1 false ∧
      handleMessage st1 ws (.msg_delivered mid) = .done st2 out2 false ∧
      getDeliveredAt st2.db.receipts mid s.userId =
        getDeliveredAt st1.db.receipts mid s.userId ∧
      (getDeliveredAt st1.db.receipts mid s.userId).isSome = true ∧
      (∀ rs mid2 uid2 t2 a b v, getDeliveredAt rs a b = some v →
        getDeliveredAt (upsertReceipt rs mid2 uid2 t2) a b = some v) := by
  refine ⟨ackState st mid s.userId,
    sendToUser (ackState st mid s.userId) m.sender_user_id
      (.msg_delivered mid s.userId),
    ackState (ackState st mid s.userId) mid s.userId,
    sendToUser (ackState (ackState st mid s.userId) mid s.userId) m.sender_user_id
      (.msg_delivered mid s.userId),
    handleMessage_msg_delivered_eq st ws s mid m hs hm hfind hu, ?_, ?_, ?_, ?_⟩
  · exact handleMessage_msg_delivered_eq (ackState st mid s.userId) ws s mid m hs hm hfind hu
  · exact getDeliveredAt_upsert_idem st.db.receipts mid s.userId st.now st.now
  · show (getDeliveredAt (upsertReceipt st.db.receipts mid s.userId st.now)
        mid s.userId).isSome = true
    rw [getDeliveredAt_upsert_self]
    rfl
  · intro rs mid2 uid2 t2 a b v hv
    exact getDeliveredAt_upsert_mono rs mid2 uid2 t2 a b v hv

/-- Concrete state for the C5 witness: message 1 from user 2, user 1
authenticated on socket 1, no receipts yet. -/
def stAck : ServerState :=
  { db := { dbTwoUsers with
      conversations := [⟨1, true, some 2⟩], members := [⟨1, 1⟩, ⟨1, 2⟩],
      messages := [⟨1, 1, 2, "hey", 3⟩], nextConvId := 2, nextMsgId := 2 },
    clients := [1], connectionsByUser := [(1, [1])],
    sessionBySocket := [(1, ⟨1, "alice"⟩)], now := 9 }

/-- Witness for the C5 theorem at a concrete input. -/
theorem delivery_ack_idempotent_witness :
    ∃ st1 out1 st2 out2,
      handleMessage stAck 1 (.msg_delivered 1) = .done st1 out1 false ∧
      handleMessage st1 1 (.msg_delivered 1) = .done st2 out2 false ∧
      getDeliveredAt st2.db.receipts 1 1 = getDeliveredAt st1.db.receipts 1 1 ∧
      (getDeliveredAt st1.db.receipts 1 1).isSome = true ∧
      (∀ rs mid2 uid2 t2 a b v, getDeliveredAt rs a b = some v →
        getDeliveredAt (upsertReceipt rs mid2 uid2 t2) a b = some v) :=
  delivery_ack_idempotent stAck 1 ⟨1, "alice"⟩ 1 ⟨1, 1, 2, "hey", 3⟩ rfl
    (by decide) rfl rfl

/-! C10: no participation check on delivery acks. -/

/-- C10: a msg_delivered for any existing message from any
authenticated existing user upserts the delivery receipt for that
(message, user) pair — leaving delivered_at set — and pushes
msg_delivered{msgId, byUserId} to every live connection of the sender
of the message; no hypothesis about the acking user participating in
the message's conversation or being its recipient appears, because the
handler performs no such check. -/
theorem msgDelivered_no_participation_check (st : ServerState) (ws : ConnId)
    (s : Session) (mid : Nat) (m : MessageRow)
    (hs : lookupSession st.sessionBySocket ws = some s)
    (hm : mid ≠ 0)
    (hfind : st.db.msgById mid = some m)
    (hu : st.db.userExists s.userId = true) :
    handleMessage st ws (.msg_delivered mid) =
      .done (ackState st mid s.userId)
        (sendToUser (ackState st mid s.userId) m.sender_user_id
          (.msg_delivered mid s.userId)) false ∧
    (ackState st mid s.userId).db.receipts =
      upsertReceipt st.db.receipts mid s.userId st.now ∧
    (getDeliveredAt (ackState st mid s.userId).db.receipts mid s.userId).isSome
      = true ∧
    (∀ conns, lookupConns st.connectionsByUser m.sender_user_id = some conns →
      sendToUser (ackState st mid s.userId) m.sender_user_id
          (.msg_delivered mid s.userId) =
        conns.map (fun c => (c, WireMsg.msg_delivered mid s.userId))) := by
  refine ⟨handleMessage_msg_delivered_eq st ws s mid m hs hm hfind hu, rfl, ?_, ?_⟩
  · show (getDeliveredAt (upsertReceipt st.db.receipts mid s.userId st.now)
        mid s.userId).isSome = true
    rw [getDeliveredAt_upsert_self]
    rfl
  · intro conns hc
    show sendToUser { st with db := { st.db with
        receipts := upsertReceipt st.db.receipts mid s.userId st.now } }
        m.sender_user_id (.msg_delivered mid s.userId) =
      conns.map (fun c => (c, WireMsg.msg_delivered mid s.userId))
    simp [sendToUser, hc]

/-- Concrete state for the C10 witness: message 1 sits in conversation 1
whose members are users 1 and 2; its sender 1 is online on sockets 10
and 11; user 3 is authenticated on socket 5 and is not a member of
conversation 1. -/
def stOutsider : ServerState :=
  { db := { users := [⟨1, "alice", "alice@upv.es", true⟩,
                      ⟨2, "bruno", "bruno@upv.es", true⟩,
                      ⟨3, "carla", "carla@upv.es", true⟩],
            conversations := [⟨1, true, some 1⟩],
            members := [⟨1, 1⟩, ⟨1, 2⟩],
            messages := [⟨1, 1, 1, "hey", 2⟩],
            receipts := [], blocks := [], nextConvId := 2, nextMsgId := 2 },
    clients := [10, 11, 5], connectionsByUser := [(1, [10, 11]), (3, [5])],
    sessionBySocket := [(5, ⟨3, "carla"⟩)], now := 9 }

/-- Witness for the C10 theorem: user 3 is not a member of message 1's
conversation, yet the ack from user 3 is processed and the confirmation
goes to both of sender 1's sockets. -/
theorem msgDelivered_no_participation_check_witness :
    stOutsider.db.isMember 1 3 = false ∧
    (handleMessage stOutsider 5 (.msg_delivered 1) =
        .done (ackState stOutsider 1 3)
          (sendToUser (ackState stOutsider 1 3) 1 (.msg_delivered 1 3)) false ∧
      (ackState stOutsider 1 3).db.receipts =
        upsertReceipt stOutsider.db.receipts 1 3 stOutsider.now ∧
      (getDeliveredAt (ackState stOutsider 1 3).db.receipts 1 3).isSome = true ∧
      (∀ conns, lookupConns stOutsider.connectionsByUser 1 = some conns →
        sendToUser (ackState stOutsider 1 3) 1 (.msg_delivered 1 3) =
          conns.map (fun c => (c, WireMsg.msg_delivered 1 3)))) :=
  ⟨rfl, msgDelivered_no_participation_check stOutsider 5 ⟨3, "carla"⟩ 1
    ⟨1, 1, 1, "hey", 2⟩ rfl (by decide) rfl rfl⟩

/-! C9: presence registry invariants. -/

/-- removeConn leaves a registry untouched when no entry has the removed
key. -/
theorem removeConn_of_not_mem (reg : Registry) (uid : Nat) (ws : ConnId)
    (h : ∀ p ∈ reg, p.1 ≠ uid) : removeConn reg uid ws = reg := by
  induction reg with
  | nil => rfl
  | cons q rest ih =>
      have hq : (q.1 == uid) = false := by
        simp only [beq_eq_false_iff_ne]
        exact h q (List.mem_cons_self q rest)
      simp only [removeConn, List.filterMap_cons, hq, Bool.false_eq_true, if_false]
      rw [show List.filterMap _ rest = removeConn rest uid ws from rfl,
        ih (fun p hp => h p (List.mem_cons_of_mem q hp))]

/-- C9: a user is online exactly when the registry holds a non-empty
connection set for it; removal on close deletes the closed socket from
the set; when the set held only that socket the user transitions
offline; and both registry mutations preserve the invariant that no
entry with an empty connection set is retained. -/
theorem registry_presence_invariant :
    (∀ reg uid, isUserOnline reg uid = true ↔
      ∃ s, lookupConns reg uid = some s ∧ s ≠ []) ∧
    (∀ reg uid ws s, lookupConns (removeConn reg uid ws) uid = some s →
      ws ∉ s) ∧
    (∀ reg uid ws, (reg.map Prod.fst).Nodup →
      lookupConns reg uid = some [ws] →
      isUserOnline (removeConn reg uid ws) uid = false) ∧
    (∀ reg uid ws, (∀ p ∈ reg, p.2 ≠ []) →
      ∀ p ∈ removeConn reg uid ws, p.2 ≠ []) ∧
    (∀ reg uid ws, (∀ p ∈ reg, p.2 ≠ []) →
      ∀ p ∈ addConn reg uid ws, p.2 ≠ []) := by
  refine ⟨?_, ?_, ?_, ?_, ?_⟩
  · intro reg uid
    unfold isUserOnline
    cases hl : lookupConns reg uid with
    | none => simp
    | some s => simp [List.isEmpty_iff]
  · intro reg uid ws
    induction reg with
    | nil => intro s hs; simp [removeConn, lookupConns] at hs
    | cons q rest ih =>
        intro s hs
        by_cases hq : (q.1 == uid) = true
        · simp only [removeConn, List.filterMap_cons, hq, if_true] at hs
          by_cases he : (q.2.filter (fun c => c != ws)).isEmpty = true
          · simp only [he, if_true] at hs
            exact ih s hs
          · simp only [he, Bool.false_eq_true, if_false] at hs
            simp [lookupConns, List.find?_cons, hq] at hs
            subst hs
            intro hmem
            have hmem2 := List.mem_filter.mp hmem
            simp at hmem2
        · simp only [removeConn, List.filterMap_cons, hq, Bool.false_eq_true,
            if_false] at hs
          simp only [lookupConns, List.find?_cons, hq, Bool.false_eq_true] at hs
          exact ih s hs
  · intro reg uid ws
    induction reg with
    | nil => intro _ hl; simp [lookupConns] at hl
    | cons q rest ih =>
        intro hnd hl
        by_cases hq : (q.1 == uid) = true
        · simp only [lookupConns, List.find?_cons, hq] at hl
          simp at hl
          simp only [removeConn, List.filterMap_cons, hq, if_true]
          have hfe : (q.2.filter (fun c => c != ws)).isEmpty = true := by
            rw [hl]
            simp
          simp only [hfe, if_true]
          have huid : q.1 = uid := by simpa using hq
          have hrest : ∀ p ∈ rest, p.1 ≠ uid := by
            intro p hp
            have := (List.nodup_cons.mp hnd).1
            intro hpe
            exact this (huid ▸ hpe ▸ List.mem_map_of_mem Prod.fst hp)
          rw [show List.filterMap _ rest = removeConn rest uid ws from rfl,
            removeConn_of_not_mem rest uid ws hrest]
          unfold isUserOnline
          have hnone : lookupConns rest uid = none := by
            unfold lookupConns
            have hfind : List.find? (fun p => p.1 == uid) rest = none := by
              rw [List.find?_eq_none]
              intro p hp
              simpa using hrest p hp
            rw [hfind]
            rfl
          rw [hnone]
        · simp only [lookupConns, List.find?_cons, hq, Bool.false_eq_true] at hl
          simp only [removeConn, List.filterMap_cons, hq, Bool.false_eq_true,
            if_false]
          have hih := ih (List.nodup_cons.mp hnd).2 hl
          unfold isUserOnline at hih ⊢
          simp only [lookupConns, List.find?_cons, hq, Bool.false_eq_true]
          exact hih
  · intro reg uid ws hwf p hp
    rcases List.mem_filterMap.mp hp with ⟨q, hq, hfq⟩
    by_cases hk : (q.1 == uid) = true
    · simp only [hk, if_true] at hfq
      by_cases he : (q.2.filter (fun c => c != ws)).isEmpty = true
      · simp [he] at hfq
      · simp only [he, Bool.false_eq_true, if_false, Option.some_inj] at hfq
        subst hfq
        simpa [List.isEmpty_iff] using he
    · simp only [hk, Bool.false_eq_true, if_false, Option.some_inj] at hfq
      subst hfq
      exact hwf q hq
  · intro reg uid ws hwf p hp
    unfold addConn at hp
    by_cases ha : reg.any (fun p => p.1 == uid) = true
    · simp only [ha, if_true] at hp
      rcases List.mem_map.mp hp with ⟨q, hq, hfq⟩
      by_cases hk : (q.1 == uid) = true
      · simp only [hk, if_true] at hfq
        subst hfq
        by_cases hc : q.2.contains ws = true
        · rw [if_pos hc]
          exact hwf q hq
        · rw [if_neg hc]
          simp
      · simp only [hk, Bool.false_eq_true, if_false] at hfq
        subst hfq
        exact hwf q hq
    · simp only [ha, Bool.false_eq_true, if_false] at hp
      rcases List.mem_append.mp hp with hq | hq
      · exact hwf p hq
      · rcases List.mem_singleton.mp hq with rfl
        simp

/-- Witness for the C9 theorem at concrete inputs: user 1 online with
the single socket 5 goes offline once socket 5 unregisters. -/
theorem registry_presence_invariant_witness :
    (isUserOnline [(1, [5])] 1 = true ↔
      ∃ s, lookupConns [(1, [5])] 1 = some s ∧ s ≠ []) ∧
    isUserOnline (removeConn [(1, [5])] 1 5) 1 = false :=
  ⟨registry_presence_invariant.1 [(1, [5])] 1,
   registry_presence_invariant.2.2.1 [(1, [5])] 1 5 (by decide) rfl⟩

/-! C1: getOrCreateDM determinism and the first-contact race. -/

/-- The conversation id a getOrCreateDM call returned, none on error. -/
def dmResultId : Except Unit (DB × Nat) → Option Nat
  | .ok (_, cid) => some cid
  | .error _ => none

/-- The store produced when the first-contact race between users 1 and 2
runs both SELECT phases before either INSERT: two dm conversations for
the same unordered pair. -/
def dbRaced : DB :=
  { users := [⟨1, "alice", "alice@upv.es", true⟩, ⟨2, "bruno", "bruno@upv.es", true⟩],
    conversations := [⟨1, true, some 1⟩, ⟨2, true, some 2⟩],
    members := [⟨1, 1⟩, ⟨1, 2⟩, ⟨2, 2⟩, ⟨2, 1⟩],
    messages := [], receipts := [], blocks := [],
    nextConvId := 3, nextMsgId := 1 }

/-- C1 counterexample: on a fresh store, two concurrent first-time calls
getOrCreateDM(1,2) and getOrCreateDM(2,1) interleaved at their await
points (both lookups before either insert) return the two different
conversation ids 1 and 2 and leave two dm conversation rows for the one
unordered pair, refuting both the same-id and the at-most-one-row part
of the claim under concurrency. -/
theorem getOrCreateDM_race_duplicates :
    getOrCreateDMRace dbTwoUsers 1 2 2 1 = .ok (dbRaced, 1, 2) ∧
    dbRaced.dmCount 1 2 = 2 :=
  ⟨rfl, rfl⟩

/-- dmLookup sorts its argument pair, so it is symmetric. -/
theorem dmLookup_symm (db : DB) (a b : Nat) : dmLookup db a b = dmLookup db b a := by
  unfold dmLookup
  by_cases h : a < b
  · simp only [if_pos h, if_neg (Nat.lt_asymm h)]
  · by_cases h2 : b < a
    · simp only [if_neg h, if_pos h2]
    · simp only [if_neg h, if_neg h2]
      have hab : a = b := Nat.le_antisymm (Nat.le_of_not_lt h2) (Nat.le_of_not_lt h)
      rw [hab]

/-- The store after the create phase of getOrCreateDM for (a, b). -/
def dmCreatedDB (db : DB) (a b : Nat) : DB :=
  { db with
    conversations := db.conversations ++ [⟨db.nextConvId, true, some a⟩],
    members := db.members ++ [⟨db.nextConvId, a⟩, ⟨db.nextConvId, b⟩],
    nextConvId := db.nextConvId + 1 }

/-- The freshly created conversation has both creators as members. -/
theorem isMember_created_new (db : DB) (a b x : Nat) (hx : x = a ∨ x = b) :
    (dmCreatedDB db a b).isMember db.nextConvId x = true := by
  unfold dmCreatedDB DB.isMember
  simp only [List.any_append]
  rcases hx with rfl | rfl <;> simp

/-- Membership of every other conversation is unchanged by the create
phase. -/
theorem isMember_created_old (db : DB) (a b cid x : Nat)
    (hne : cid ≠ db.nextConvId) :
    (dmCreatedDB db a b).isMember cid x = db.isMember cid x := by
  unfold dmCreatedDB DB.isMember
  simp only [List.any_append]
  have h1 : (db.nextConvId == cid) = false := by
    simp only [beq_eq_false_iff_ne, ne_eq]
    exact fun h => hne h.symm
  simp [h1]

/-- After a create for the pair (a, b) on a store whose conversation ids
all lie below the AUTO_INCREMENT counter, the dm SELECT for any two
members of the created pair finds exactly the created conversation. -/
theorem findDM_created (db : DB) (a b x y : Nat)
    (hwf : ∀ cv ∈ db.conversations, cv.id < db.nextConvId)
    (hx : x = a ∨ x = b) (hy : y = a ∨ y = b)
    (hl : db.findDM x y = none) :
    (dmCreatedDB db a b).findDM x y = some db.nextConvId := by
  have hfnone : db.conversations.find? (fun c =>
      c.isDm && db.isMember c.id x && db.isMember c.id y) = none := by
    unfold DB.findDM at hl
    cases hfind : db.conversations.find? (fun c =>
        c.isDm && db.isMember c.id x && db.isMember c.id y) with
    | none => rfl
    | some cv => rw [hfind] at hl; simp at hl
  unfold DB.findDM
  have hconvs : (dmCreatedDB db a b).conversations =
      db.conversations ++ [⟨db.nextConvId, true, some a⟩] := rfl
  rw [hconvs, List.find?_append]
  have hold : db.conversations.find? (fun c =>
      c.isDm && (dmCreatedDB db a b).isMember c.id x &&
        (dmCreatedDB db a b).isMember c.id y) = none := by
    rw [List.find?_eq_none]
    intro cv hcv
    have hne : cv.id ≠ db.nextConvId := Nat.ne_of_lt (hwf cv hcv)
    have hme := List.find?_eq_none.mp hfnone cv hcv
    simp only [isMember_created_old db a b cv.id x hne,
      isMember_created_old db a b cv.id y hne]
    exact hme
  rw [hold]
  have hnew : List.find? (fun c : ConvRow =>
      c.isDm && (dmCreatedDB db a b).isMember c.id x &&
        (dmCreatedDB db a b).isMember c.id y)
      ([⟨db.nextConvId, true, some a⟩] : List ConvRow) =
      some (⟨db.nextConvId, true, some a⟩ : ConvRow) := by
    have hmx : (dmCreatedDB db a b).isMember db.nextConvId x = true :=
      isMember_created_new db a b x hx
    have hmy : (dmCreatedDB db a b).isMember db.nextConvId y = true :=
      isMember_created_new db a b y hy
    simp [List.find?_cons, hmx, hmy]
  rw [hnew]
  rfl

/-- dmLookup finds the conversation just created for its own pair. -/
theorem dmLookup_created (db : DB) (a b : Nat)
    (hwf : ∀ cv ∈ db.conversations, cv.id < db.nextConvId)
    (hl : dmLookup db a b = none) :
    dmLookup (dmCreatedDB db a b) a b = some db.nextConvId := by
  unfold dmLookup at hl ⊢
  exact findDM_created db a b _ _ hwf
    (by by_cases h : a < b <;> simp [h])
    (by by_cases h : a < b <;> simp [h]) hl

/-- C1 (amended): sequentially, getOrCreateDM is symmetric — the calls
for (A,B) and (B,A) return the same conversation id — and idempotent: a
call after a successful one (in either argument order) returns the same
id and leaves the store unchanged, so at most one row results per pair
when the calls do not interleave.  Two concurrent first-time calls,
however, can each run their SELECT before either INSERT and then create
two conversation rows for the one unordered pair — there is no unique
index or retry-on-duplicate guarding the check-then-create sequence. -/
theorem getOrCreateDM_sequential_deterministic :
    (∀ db a b, dmResultId (getOrCreateDM db a b) =
      dmResultId (getOrCreateDM db b a)) ∧
    (∀ db a b db1 c, (∀ cv ∈ db.conversations, cv.id < db.nextConvId) →
      getOrCreateDM db a b = .ok (db1, c) →
      getOrCreateDM db1 a b = .ok (db1, c) ∧
        getOrCreateDM db1 b a = .ok (db1, c)) := by
  constructor
  · intro db a b
    unfold getOrCreateDM
    rw [dmLookup_symm db a b]
    cases hl : dmLookup db b a with
    | some c => rfl
    | none =>
        unfold dmCreate
        have hbne : (a != b) = (b != a) := by
          by_cases hab : a = b
          · rw [hab]
          · rw [bne_iff_ne.mpr hab, bne_iff_ne.mpr (Ne.symm hab)]
        rw [hbne, Bool.and_comm (db.userExists a) (db.userExists b)]
        cases hc2 : (db.userExists b && db.userExists a && (b != a)) <;> rfl
  · intro db a b db1 c hwf heq
    unfold getOrCreateDM at heq
    cases hl : dmLookup db a b with
    | some c0 =>
        rw [hl] at heq
        injection heq with h2
        injection h2 with h3 h4
        subst h3
        subst h4
        constructor
        · unfold getOrCreateDM
          rw [hl]
        · unfold getOrCreateDM
          rw [dmLookup_symm db b a, hl]
    | none =>
        rw [hl] at heq
        unfold dmCreate at heq
        by_cases hc : (db.userExists a && db.userExists b && (a != b)) = true
        · rw [if_pos hc] at heq
          injection heq with h2
          injection h2 with h3 h4
          subst h3
          subst h4
          have hlook := dmLookup_created db a b hwf hl
          constructor
          · show getOrCreateDM (dmCreatedDB db a b) a b =
              .ok (dmCreatedDB db a b, db.nextConvId)
            unfold getOrCreateDM
            rw [hlook]
          · show getOrCreateDM (dmCreatedDB db a b) b a =
              .ok (dmCreatedDB db a b, db.nextConvId)
            unfold getOrCreateDM
            rw [dmLookup_symm (dmCreatedDB db a b) b a, hlook]
        · rw [if_neg hc] at heq
          exact absurd heq (by simp)

/-- The store after a successful first getOrCreateDM(1,2) on the fresh
two-user store. -/
def dbOneDM : DB :=
  { users := [⟨1, "alice", "alice@upv.es", true⟩, ⟨2, "bruno", "bruno@upv.es", true⟩],
    conversations := [⟨1, true, some 1⟩],
    members := [⟨1, 1⟩, ⟨1, 2⟩],
    messages := [], receipts := [], blocks := [],
    nextConvId := 2, nextMsgId := 1 }

/-- Witness for the amended C1 theorem at concrete inputs. -/
theorem getOrCreateDM_sequential_deterministic_witness :
    (dmResultId (getOrCreateDM dbTwoUsers 1 2) =
      dmResultId (getOrCreateDM dbTwoUsers 2 1)) ∧
    (getOrCreateDM dbOneDM 1 2 = .ok (dbOneDM, 1) ∧
      getOrCreateDM dbOneDM 2 1 = .ok (dbOneDM, 1)) :=
  ⟨getOrCreateDM_sequential_deterministic.1 dbTwoUsers 1 2,
   getOrCreateDM_sequential_deterministic.2 dbTwoUsers 1 2 dbOneDM 1
     (by intro cv hcv; simp [dbTwoUsers] at hcv) rfl⟩

/-! C7 and C8: handshake replay and presence broadcasts. -/

/-- State after a successful hello on socket ws for user uid: the
session is stored and the socket registered, before any send happens. -/
def helloState (st : ServerState) (ws : ConnId) (uid : Nat) (uname : String) :
    ServerState :=
  { st with
    sessionBySocket := setSession st.sessionBySocket ws ⟨uid, uname⟩,
    connectionsByUser := addConn st.connectionsByUser uid ws }

/-- Reduction of the hello branch on a valid token for an existing
active user: register, answer hello_ok, broadcast the roster, then
replay the backlog. -/
theorem handleMessage_hello_ok_eq (st : ServerState) (ws : ConnId) (uid : Nat)
    (u : UserRow)
    (hu : st.db.userById uid = some u) (ha : u.is_active = true) :
    handleMessage st ws (.hello (some uid)) =
      .done (helloState st ws uid u.username)
        ([(ws, .hello_ok uid u.username)]
          ++ sendUsersList (helloState st ws uid u.username)
          ++ deliverPendingOut (helloState st ws uid u.username) uid) false := by
  simp [handleMessage, hu, ha, helloState]

/-- Registering a socket for uid leaves uid online. -/
theorem isUserOnline_addConn (reg : Registry) (uid : Nat) (ws : ConnId) :
    isUserOnline (addConn reg uid ws) uid = true := by
  induction reg with
  | nil =>
      simp [addConn, isUserOnline, lookupConns]
  | cons q rest ih =>
      by_cases hq : (q.1 == uid) = true
      · have hany : (q :: rest).any (fun p => p.1 == uid) = true := by
          simp [List.any_cons, hq]
        simp only [addConn, hany, if_true, List.map_cons]
        simp only [isUserOnline, lookupConns, List.find?_cons, hq, if_true]
        by_cases hc : q.2.contains ws = true
        · rw [if_pos hc]
          have hne : q.2 ≠ [] := by
            intro he
            rw [he] at hc
            simp [List.contains] at hc
          simp [List.isEmpty_iff, hne]
        · rw [if_neg hc]
          simp [List.isEmpty_iff]
      · rw [Bool.not_eq_true] at hq
        by_cases hany : rest.any (fun p => p.1 == uid) = true
        · have hany2 : (q :: rest).any (fun p => p.1 == uid) = true := by
            simp [List.any_cons, hany]
          simp only [addConn, hany2, if_true, List.map_cons, hq,
            Bool.false_eq_true, if_false]
          simp only [isUserOnline, lookupConns, List.find?_cons, hq,
            Bool.false_eq_true]
          simp only [addConn, hany, if_true] at ih
          simpa [isUserOnline, lookupConns] using ih
        · rw [Bool.not_eq_true] at hany
          have hany2 : (q :: rest).any (fun p => p.1 == uid) = false := by
            simp [List.any_cons, hq, hany]
          simp only [addConn, hany2, Bool.false_eq_true, if_false,
            List.cons_append]
          simp only [isUserOnline, lookupConns, List.find?_cons, hq,
            Bool.false_eq_true]
          simp only [addConn, hany, Bool.false_eq_true, if_false] at ih
          simpa [isUserOnline, lookupConns] using ih

/-- A message in the backlog result set qualifies: the user is a member
of its conversation and no delivered receipt exists for it, and it is a
stored message. -/
theorem mem_pendingFor (db : DB) (uid : Nat) (m : MessageRow)
    (hm : m ∈ pendingFor db uid) :
    db.isMember m.conversation_id uid = true ∧
    (∀ r, db.receiptFor m.id uid = some r → r.delivered_at = none) ∧
    m ∈ db.messages := by
  unfold pendingFor at hm
  have h1 := List.mem_of_mem_take hm
  rw [List.mem_mergeSort] at h1
  rcases List.mem_filter.mp h1 with ⟨hmem, hpred⟩
  unfold pendingPred at hpred
  simp only [Bool.and_eq_true] at hpred
  rcases hpred with ⟨hmemb, hrec⟩
  refine ⟨hmemb, ?_, hmem⟩
  intro r hr
  rw [hr] at hrec
  simpa [Option.isNone_iff_eq_none] using hrec

/-- The backlog result set is ordered by creation time ascending. -/
theorem pendingFor_sorted (db : DB) (uid : Nat) :
    (pendingFor db uid).Pairwise (fun m1 m2 => m1.created_at ≤ m2.created_at) := by
  unfold pendingFor
  have hsorted := @List.sorted_mergeSort MessageRow
    (fun m1 m2 : MessageRow => m1.created_at ≤ m2.created_at)
    (fun a b c h1 h2 => by
      simp only [decide_eq_true_eq] at h1 h2 ⊢
      exact Nat.le_trans h1 h2)
    (fun a b => by
      rcases Nat.le_total a.created_at b.created_at with h | h <;> simp [h])
    (db.messages.filter (pendingPred db uid))
  have htake := hsorted.sublist (List.take_sublist 500 _)
  exact htake.imp (fun h => by simpa using h)

/-- The backlog result set respects LIMIT 500. -/
theorem pendingFor_length_le (db : DB) (uid : Nat) :
    (pendingFor db uid).length ≤ 500 := by
  unfold pendingFor
  rw [List.length_take]
  exact Nat.min_le_left _ _

/-- When at most 500 messages qualify, every qualifying message is in
the backlog result set. -/
theorem pendingFor_complete (db : DB) (uid : Nat)
    (hlen : (db.messages.filter (pendingPred db uid)).length ≤ 500)
    (m : MessageRow) (hm : m ∈ db.messages)
    (hp : pendingPred db uid m = true) :
    m ∈ pendingFor db uid := by
  unfold pendingFor
  rw [List.take_of_length_le (by rw [List.length_mergeSort]; exact hlen)]
  rw [List.mem_mergeSort]
  exact List.mem_filter.mpr ⟨hm, hp⟩

/-- C7: a successful handshake for uid registers the socket and then —
after the hello_ok reply and the roster broadcast — pushes the backlog:
the query result over the unchanged store, holding only messages of
conversations uid belongs to with no delivered receipt for uid, sorted
by creation time ascending, at most 500 of them, each pushed to uid
with the msg_new shape of the live-send path, in query order. -/
theorem backlog_replay_on_handshake (st : ServerState) (ws : ConnId) (uid : Nat)
    (u : UserRow)
    (hu : st.db.userById uid = some u) (ha : u.is_active = true) :
    handleMessage st ws (.hello (some uid)) =
      .done (helloState st ws uid u.username)
        ([(ws, .hello_ok uid u.username)]
          ++ sendUsersList (helloState st ws uid u.username)
          ++ deliverPendingOut (helloState st ws uid u.username) uid) false ∧
    (helloState st ws uid u.username).db = st.db ∧
    deliverPendingOut (helloState st ws uid u.username) uid =
      (pendingFor st.db uid).flatMap (fun m =>
        sendToUser (helloState st ws uid u.username) uid (msgNewOf m)) ∧
    (∀ m, m ∈ pendingFor st.db uid →
      st.db.isMember m.conversation_id uid = true ∧
      (∀ r, st.db.receiptFor m.id uid = some r → r.delivered_at = none) ∧
      m ∈ st.db.messages) ∧
    (pendingFor st.db uid).Pairwise (fun m1 m2 =>
      m1.created_at ≤ m2.created_at) ∧
    (pendingFor st.db uid).length ≤ 500 ∧
    ((st.db.messages.filter (pendingPred st.db uid)).length ≤ 500 →
      ∀ m, m ∈ st.db.messages → pendingPred st.db uid m = true →
        m ∈ pendingFor st.db uid) ∧
    (∀ m, msgNewOf m =
      .msg_new m.id m.conversation_id m.sender_user_id m.body m.created_at) := by
  refine ⟨handleMessage_hello_ok_eq st ws uid u hu ha, rfl, rfl,
    fun m hm => mem_pendingFor st.db uid m hm,
    pendingFor_sorted st.db uid,
    pendingFor_length_le st.db uid,
    fun hlen m hm hp => pendingFor_complete st.db uid hlen m hm hp,
    fun m => rfl⟩

/-- Witness for the C7 theorem: a handshake of user 1 on socket 4 over a
store holding one undelivered message. -/
theorem backlog_replay_on_handshake_witness :
    handleMessage stAck 4 (.hello (some 1)) =
      .done (helloState stAck 4 1 "alice")
        ([(4, .hello_ok 1 "alice")]
          ++ sendUsersList (helloState stAck 4 1 "alice")
          ++ deliverPendingOut (helloState stAck 4 1 "alice") 1) false :=
  (backlog_replay_on_handshake stAck 4 1 ⟨1, "alice", "alice@upv.es", true⟩
    rfl rfl).1

/-- The roster payload holds exactly the active users, each with
online = isUserOnline of the given registry. -/
theorem mem_rosterPayload (db : DB) (reg : Registry) (e : UsersEntry) :
    e ∈ rosterPayload db reg ↔
      ∃ u, u ∈ db.users ∧ u.is_active = true ∧
        e = ⟨u.id, u.username, u.email, isUserOnline reg u.id⟩ := by
  unfold rosterPayload
  constructor
  · intro he
    rcases List.mem_map.mp he with ⟨u, hu, hfu⟩
    rcases List.mem_filter.mp hu with ⟨hmem, hact⟩
    exact ⟨u, List.mem_mergeSort.mp hmem, hact, hfu.symm⟩
  · rintro ⟨u, hmem, hact, rfl⟩
    exact List.mem_map.mpr ⟨u,
      List.mem_filter.mpr ⟨List.mem_mergeSort.mpr hmem, hact⟩, rfl⟩

/-- The roster payload is ordered by username ascending. -/
theorem rosterPayload_sorted (db : DB) (reg : Registry) :
    (rosterPayload db reg).Pairwise (fun e1 e2 =>
      e1.username ≤ e2.username) := by
  unfold rosterPayload
  have hsorted := @List.sorted_mergeSort UserRow
    (fun u1 u2 : UserRow => u1.username ≤ u2.username)
    (fun a b c h1 h2 => by
      simp only [decide_eq_true_eq] at h1 h2 ⊢
      exact le_trans h1 h2)
    (fun a b => by
      rcases le_total a.username b.username with h | h <;> simp [h])
    db.users
  have hfilter := hsorted.filter (fun u : UserRow => u.is_active)
  rw [List.pairwise_map]
  exact hfilter.imp (fun h => by simpa using h)

/-- C8: after a completed handshake the handler broadcasts — right after
the hello_ok reply — one users message to every currently connected
socket, and after the disconnect of an authenticated socket it
broadcasts one users message to every remaining socket; in both cases
the payload is the roster over the already-updated registry (the fresh
socket counts as online after connect, the closed one is removed before
the broadcast), holding exactly the active users as {id, username,
email, online} with online = isOnline(id), ordered by username
ascending. -/
theorem users_broadcast_on_presence_change :
    (∀ st ws uid u, (st : ServerState).db.userById uid = some u →
      u.is_active = true →
      handleMessage st ws (.hello (some uid)) =
        .done (helloState st ws uid u.username)
          ([(ws, .hello_ok uid u.username)]
            ++ sendUsersList (helloState st ws uid u.username)
            ++ deliverPendingOut (helloState st ws uid u.username) uid) false ∧
      (helloState st ws uid u.username).clients = st.clients ∧
      isUserOnline (helloState st ws uid u.username).connectionsByUser uid
        = true ∧
      sendUsersList (helloState st ws uid u.username) =
        st.clients.map (fun c => (c, WireMsg.users (rosterPayload st.db
          (helloState st ws uid u.username).connectionsByUser)))) ∧
    (∀ st ws s, lookupSession (st : ServerState).sessionBySocket ws = some s →
      handleClose st ws =
        ({ st with
            clients := st.clients.filter (fun c => c != ws),
            connectionsByUser :=
              removeConn st.connectionsByUser s.userId ws },
          sendUsersList
            { st with
              clients := st.clients.filter (fun c => c != ws),
              connectionsByUser :=
                removeConn st.connectionsByUser s.userId ws }) ∧
      sendUsersList
          { st with
            clients := st.clients.filter (fun c => c != ws),
            connectionsByUser :=
              removeConn st.connectionsByUser s.userId ws } =
        (st.clients.filter (fun c => c != ws)).map (fun c =>
          (c, WireMsg.users (rosterPayload st.db
            (removeConn st.connectionsByUser s.userId ws))))) ∧
    (∀ db reg e, e ∈ rosterPayload db reg ↔
      ∃ u, u ∈ (db : DB).users ∧ u.is_active = true ∧
        e = ⟨u.id, u.username, u.email, isUserOnline reg u.id⟩) ∧
    (∀ db reg, (rosterPayload db reg).Pairwise (fun e1 e2 =>
      e1.username ≤ e2.username)) := by
  refine ⟨?_, ?_, mem_rosterPayload, rosterPayload_sorted⟩
  · intro st ws uid u hu ha
    exact ⟨handleMessage_hello_ok_eq st ws uid u hu ha, rfl,
      isUserOnline_addConn st.connectionsByUser uid ws, rfl⟩
  · intro st ws s hs
    constructor
    · simp [handleClose, hs]
    · rfl

/-- Witness for the C8 theorem: a handshake on socket 1 and the
disconnect of the authenticated socket 1, at concrete inputs. -/
theorem users_broadcast_on_presence_change_witness :
    (handleMessage stUnauth 1 (.hello (some 1)) =
      .done (helloState stUnauth 1 1 "alice")
        ([(1, .hello_ok 1 "alice")]
          ++ sendUsersList (helloState stUnauth 1 1 "alice")
          ++ deliverPendingOut (helloState stUnauth 1 1 "alice") 1) false ∧
      (helloState stUnauth 1 1 "alice").clients = stUnauth.clients ∧
      isUserOnline (helloState stUnauth 1 1 "alice").connectionsByUser 1
        = true ∧
      sendUsersList (helloState stUnauth 1 1 "alice") =
        stUnauth.clients.map (fun c => (c, WireMsg.users (rosterPayload
          stUnauth.db
          (helloState stUnauth 1 1 "alice").connectionsByUser)))) ∧
    (handleClose stNoMsg 1 =
      ({ stNoMsg with
          clients := stNoMsg.clients.filter (fun c => c != 1),
          connectionsByUser := removeConn stNoMsg.connectionsByUser 1 1 },
        sendUsersList
          { stNoMsg with
            clients := stNoMsg.clients.filter (fun c => c != 1),
            connectionsByUser := removeConn stNoMsg.connectionsByUser 1 1 }) ∧
      sendUsersList
          { stNoMsg with
            clients := stNoMsg.clients.filter (fun c => c != 1),
            connectionsByUser := removeConn stNoMsg.connectionsByUser 1 1 } =
        (stNoMsg.clients.filter (fun c => c != 1)).map (fun c =>
          (c, WireMsg.users (rosterPayload stNoMsg.db
            (removeConn stNoMsg.connectionsByUser 1 1))))) :=
  ⟨users_broadcast_on_presence_change.1 stUnauth 1 1
      ⟨1, "alice", "alice@upv.es", true⟩ rfl rfl,
   users_broadcast_on_presence_change.2.1 stNoMsg 1 ⟨1, "alice"⟩ rfl⟩

end UpvChat
